import Mathlib

/-!
Shallow embedding of the Task Tracker core (`src/main.py`): the `Task`
model and its serialization, the `TaskManager` operations (load, add,
update, delete, status change), and the due-soon notification predicate
of `check_notifications`.  Persistence is modelled by the `Bool` each
mutating operation returns: `true` exactly when the source reaches its
`save_tasks()` call.  `datetime` values are modelled as seconds on the
proleptic Gregorian calendar; exceptions as `Option`.
-/

namespace TaskTracker

/-- `VALID_STATUSES` of main.py. -/
def VALID_STATUSES : List String := ["TODO", "IN_PROGRESS", "DONE"]

/-- `VALID_PRIORITIES` of main.py. -/
def VALID_PRIORITIES : List String := ["HIGH", "MEDIUM", "LOW"]

/-- Python's `str.upper()` as used on the ASCII enum arguments: upcase each
character. -/
def strUpper (s : String) : String := ⟨s.data.map Char.toUpper⟩

/-- Numeric value of a digit character. -/
def digitVal (c : Char) : Nat := c.toNat - 48

/-- Exactly four digits (the `%Y` field of `strptime`). -/
def parse4 : List Char → Option (Nat × List Char)
  | a :: b :: c :: d :: rest =>
    if a.isDigit ∧ b.isDigit ∧ c.isDigit ∧ d.isDigit then
      some (digitVal a * 1000 + digitVal b * 100 + digitVal c * 10 + digitVal d, rest)
    else none
  | _ => none

/-- One or two digits, maximal munch (the `%m`/`%d`/`%H`/`%M` fields of
`strptime`; range checks are done by the caller). -/
def parse2 : List Char → Option (Nat × List Char)
  | a :: b :: rest =>
    if a.isDigit then
      if b.isDigit then some (digitVal a * 10 + digitVal b, rest)
      else some (digitVal a, b :: rest)
    else none
  | [a] => if a.isDigit then some (digitVal a, []) else none
  | [] => none

/-- A literal separator character of the format string. -/
def expectChar (c : Char) : List Char → Option (List Char)
  | x :: rest => if x = c then some rest else none
  | [] => none

/-- Gregorian leap-year rule (as in Python's `datetime`). -/
def isLeapYear (y : Nat) : Bool := (y % 4 == 0 && y % 100 != 0) || y % 400 == 0

/-- Days in a month (as validated by the `datetime` constructor). -/
def daysInMonth (y m : Nat) : Nat :=
  if m = 2 then (if isLeapYear y then 29 else 28)
  else if m = 4 ∨ m = 6 ∨ m = 9 ∨ m = 11 then 30 else 31

/-- Days in all years before year `y` of the proleptic Gregorian calendar. -/
def daysBeforeYear (y : Nat) : Nat :=
  365 * (y - 1) + (y - 1) / 4 - (y - 1) / 100 + (y - 1) / 400

/-- Days in the months of year `y` strictly before month `m`. -/
def daysBeforeMonth (y m : Nat) : Nat :=
  (List.range (m - 1)).foldl (fun acc k => acc + daysInMonth y (k + 1)) 0

/-- `parse_date` of main.py: `datetime.strptime(s, "%Y-%m-%d %H:%M")` with
the whole string consumed and the field ranges `datetime` enforces; the
result is the timestamp in seconds, `none` models the raised `ValueError`. -/
def parse_date (s : String) : Option Nat := do
  let (y, r) ← parse4 s.data
  let r ← expectChar '-' r
  let (mo, r) ← parse2 r
  let r ← expectChar '-' r
  let (d, r) ← parse2 r
  let r ← expectChar ' ' r
  let (h, r) ← parse2 r
  let r ← expectChar ':' r
  let (mi, r) ← parse2 r
  if r = [] ∧ 1 ≤ y ∧ 1 ≤ mo ∧ mo ≤ 12 ∧ 1 ≤ d ∧ d ≤ daysInMonth y mo ∧ h ≤ 23 ∧ mi ≤ 59 then
    some ((((daysBeforeYear y + daysBeforeMonth y mo + (d - 1)) * 24 + h) * 60 + mi) * 60)
  else none

/-- The `Task` model of main.py. -/
structure Task where
  task_id : Int
  description : String
  status : String
  priority : String
  start_time : String
  end_time : String
  reminder_enabled : Bool
  created_at : String
  updated_at : String
deriving DecidableEq, Repr

/-- A persisted record, the JSON dict `Task.from_dict` reads: a field is
`none` when its key is absent from the dict. -/
structure TaskRecord where
  id : Option Int := none
  description : Option String := none
  status : Option String := none
  priority : Option String := none
  start_time : Option String := none
  end_time : Option String := none
  reminder_enabled : Option Bool := none
  created_at : Option String := none
  createdAt : Option String := none
  updated_at : Option String := none
  updatedAt : Option String := none
deriving DecidableEq, Repr

/-- `Task.to_dict` of main.py (the legacy `createdAt`/`updatedAt` keys are
never written). -/
def Task.to_dict (t : Task) : TaskRecord :=
  { id := some t.task_id, description := some t.description, status := some t.status,
    priority := some t.priority, start_time := some t.start_time,
    end_time := some t.end_time, reminder_enabled := some t.reminder_enabled,
    created_at := some t.created_at, updated_at := some t.updated_at }

/-- Python's `a or b` for `a` an optional string: `a`'s value when present
and truthy (non-empty), otherwise `b`. -/
def orElseStr (a : Option String) (b : String) : String :=
  match a with
  | some s => if s = "" then b else s
  | none => b

/-- `Task.from_dict` of main.py; `now` is `now_str()`, used when both
timestamp keys are absent.  `none` models the `KeyError` raised when a
required key (`id`, `description`) is missing. -/
def Task.from_dict (now : String) (r : TaskRecord) : Option Task := do
  let i ← r.id
  let d ← r.description
  some { task_id := i, description := d,
         status := r.status.getD "TODO",
         priority := r.priority.getD "MEDIUM",
         start_time := r.start_time.getD "N/A",
         end_time := r.end_time.getD "N/A",
         reminder_enabled := r.reminder_enabled.getD false,
         created_at := orElseStr r.created_at (r.createdAt.getD now),
         updated_at := orElseStr r.updated_at (r.updatedAt.getD now) }

/-- `find_task` of main.py: first task with the given id, or `none`. -/
def find_task : List Task → Int → Option Task
  | [], _ => none
  | t :: ts, tid => if t.task_id = tid then some t else find_task ts tid

/-- `TaskManager.get_next_id`: `max((t.task_id for t in self.tasks), default=0) + 1`. -/
def get_next_id (tasks : List Task) : Int :=
  (match tasks.map Task.task_id with
   | [] => 0
   | x :: xs => xs.foldl max x) + 1

/-- The persisted file as `load_tasks` can observe it: absent, present but
unparseable, or parsed into a list of records. -/
inductive FileState where
  | missing
  | corrupt
  | parsed (records : List TaskRecord)
deriving DecidableEq, Repr

/-- The comprehension `[Task.from_dict(t) for t in data]`: a record whose
deserialization raises fails the whole comprehension. -/
def from_dict_list (now : String) : List TaskRecord → Option (List Task)
  | [] => some []
  | r :: rs =>
    match Task.from_dict now r, from_dict_list now rs with
    | some t, some ts => some (t :: ts)
    | _, _ => none

/-- `TaskManager.load_tasks`: `current` is `self.tasks` before the call (the
missing-file early return leaves it in place); any exception while reading
or deserializing is caught and leaves the empty list. -/
def load_tasks (current : List Task) (fs : FileState) (now : String) : List Task :=
  match fs with
  | .missing => current
  | .corrupt => []
  | .parsed rs =>
    match from_dict_list now rs with
    | some ts => ts
    | none => []

/-- `TaskManager.__init__`: the list starts empty, then `load_tasks` runs. -/
def taskManagerInit (fs : FileState) (now : String) : List Task :=
  load_tasks [] fs now

/-- `TaskManager.add_task`; the `Bool` is whether `save_tasks` ran. -/
def add_task (tasks : List Task) (description start_time end_time : String)
    (reminder : Bool) (priority : String) (now : String) : List Task × Bool :=
  match parse_date start_time with
  | none => (tasks, false)
  | some _ =>
    match parse_date end_time with
    | none => (tasks, false)
    | some _ =>
      let p := strUpper priority
      if p ∈ VALID_PRIORITIES then
        (tasks ++ [{ task_id := get_next_id tasks, description := description,
                     status := "TODO", priority := p, start_time := start_time,
                     end_time := end_time, reminder_enabled := reminder,
                     created_at := now, updated_at := now }], true)
      else (tasks, false)

/-- In-place mutation of the object `find_task` returned: replace the first
task holding the id. -/
def replace_task : List Task → Int → Task → List Task
  | [], _, _ => []
  | t :: ts, tid, u => if t.task_id = tid then u :: ts else t :: replace_task ts tid u

/-- `TaskManager.update_status`; the `Bool` is whether `save_tasks` ran. -/
def update_status (tasks : List Task) (tid : Int) (new_status : String)
    (now : String) : List Task × Bool :=
  let ns := strUpper new_status
  if ns ∈ VALID_STATUSES then
    match find_task tasks tid with
    | some t => (replace_task tasks tid { t with status := ns, updated_at := now }, true)
    | none => (tasks, false)
  else (tasks, false)

/-- `TaskManager.mark_complete`. -/
def mark_complete (tasks : List Task) (tid : Int) (now : String) : List Task × Bool :=
  update_status tasks tid "DONE" now

/-- Python truthiness of an optional string argument (`if description:`):
present and non-empty. -/
def truthy : Option String → Bool
  | some s => s != ""
  | none => false

/-- `TaskManager.update_task` from its `if end_time:` block on: the already
partially-mutated task `t` either gains a validated `end_time` and the
refreshed `updated_at` (saved), or is written back as is (unsaved). -/
def update_task_end (tasks : List Task) (tid : Int) (t : Task)
    (end_time : Option String) (now : String) : List Task × Bool :=
  if truthy end_time then
    match parse_date (end_time.getD "") with
    | some _ =>
      (replace_task tasks tid { t with end_time := end_time.getD "", updated_at := now }, true)
    | none => (replace_task tasks tid t, false)
  else (replace_task tasks tid { t with updated_at := now }, true)

/-- `TaskManager.update_task` from its `if start_time:` block on. -/
def update_task_start (tasks : List Task) (tid : Int) (t : Task)
    (start_time end_time : Option String) (now : String) : List Task × Bool :=
  if truthy start_time then
    match parse_date (start_time.getD "") with
    | some _ => update_task_end tasks tid { t with start_time := start_time.getD "" } end_time now
    | none => (replace_task tasks tid t, false)
  else update_task_end tasks tid t end_time now

/-- `TaskManager.update_task`: an argument is `none` when not passed
(Python `None`); each guard is Python truthiness, so `some ""` acts like
`none`.  Mutations happen in place in source order (description, priority,
start_time, end_time), so fields applied before a failed validation stay
applied in memory even though the call returns unsaved. -/
def update_task (tasks : List Task) (tid : Int)
    (description start_time end_time priority : Option String) (now : String) :
    List Task × Bool :=
  match find_task tasks tid with
  | none => (tasks, false)
  | some t0 =>
    let t1 := if truthy description then { t0 with description := description.getD "" } else t0
    if truthy priority then
      let p := strUpper (priority.getD "")
      if p ∈ VALID_PRIORITIES then
        update_task_start tasks tid { t1 with priority := p } start_time end_time now
      else (replace_task tasks tid t1, false)
    else update_task_start tasks tid t1 start_time end_time now

/-- `self.tasks.remove(task)`: drop the first task holding the id. -/
def remove_task : List Task → Int → List Task
  | [], _ => []
  | t :: ts, tid => if t.task_id = tid then ts else t :: remove_task ts tid

/-- `TaskManager.delete_task`; the `Bool` is whether `save_tasks` ran. -/
def delete_task (tasks : List Task) (tid : Int) : List Task × Bool :=
  match find_task tasks tid with
  | some _ => (remove_task tasks tid, true)
  | none => (tasks, false)

/-- The due-soon condition of `check_notifications` for one task: the exact
guard under which `plyer_notification.notify` is reached, with `now` the
current clock in the seconds of `parse_date`.  An unparseable `end_time`
(the caught `ValueError`) never notifies. -/
def due_soon (t : Task) (now : Int) (notified : List Int) : Bool :=
  t.status != "DONE" && t.reminder_enabled && t.end_time != "N/A" &&
    !(notified.contains t.task_id) &&
    (match parse_date t.end_time with
     | some e => decide (0 < (e : Int) - now) && decide ((e : Int) - now ≤ 60)
     | none => false)

/-- One iteration of the `check_notifications` polling loop over the
(re)loaded task list: the updated `notified_ids` set and the ids notified
this cycle, in order. -/
def notify_cycle : List Task → Int → List Int → List Int × List Int
  | [], _, notified => (notified, [])
  | t :: ts, now, notified =>
    if due_soon t now notified then
      let r := notify_cycle ts now (notified ++ [t.task_id])
      (r.1, t.task_id :: r.2)
    else notify_cycle ts now notified

/-- Well-formedness of a task per the data model: non-empty description,
legal enums, non-empty timestamps. -/
def Task.wellFormed (t : Task) : Prop :=
  t.description ≠ "" ∧ t.status ∈ VALID_STATUSES ∧ t.priority ∈ VALID_PRIORITIES ∧
  t.created_at ≠ "" ∧ t.updated_at ≠ ""

/-- Both enum fields of a task are legal values. -/
def enum_ok (t : Task) : Prop :=
  t.status ∈ VALID_STATUSES ∧ t.priority ∈ VALID_PRIORITIES

/-- A well-formed persisted record: both required keys present. -/
def recGood : TaskRecord := { id := some 1, description := some "A" }

/-- A record whose required `description` key is missing. -/
def recNoDescription : TaskRecord := { id := some 2 }

/-- A record carrying a status outside `VALID_STATUSES`. -/
def recBadStatus : TaskRecord :=
  { id := some 1, description := some "A", status := some "BANANA" }

/-- A legacy-shaped record: camelCase timestamp keys only. -/
def recLegacy : TaskRecord :=
  { id := some 2, description := some "B",
    createdAt := some "2024-01-01 00:00:00", updatedAt := some "2024-06-01 00:00:00" }

/-- A concrete well-formed task used in closed instances. -/
def sampleTask : Task :=
  { task_id := 1, description := "Old", status := "TODO", priority := "LOW",
    start_time := "2025-06-01 09:00", end_time := "2025-06-01 10:00",
    reminder_enabled := false, created_at := "2025-05-01 08:00:00",
    updated_at := "2025-05-01 08:00:00" }

lemma find_task_mem {tasks : List Task} {tid : Int} {t : Task}
    (h : find_task tasks tid = some t) : t ∈ tasks := by
  induction tasks with
  | nil => simp [find_task] at h
  | cons a as ih =>
    by_cases ha : a.task_id = tid
    · simp [find_task, ha] at h
      simp [h]
    · simp [find_task, ha] at h
      exact List.mem_cons_of_mem _ (ih h)

lemma replace_task_mem {tasks : List Task} {tid : Int} {v u : Task}
    (h : u ∈ replace_task tasks tid v) : u ∈ tasks ∨ u = v := by
  induction tasks with
  | nil => simp [replace_task] at h
  | cons a as ih =>
    by_cases ha : a.task_id = tid
    · simp [replace_task, ha] at h
      rcases h with h | h
      · exact Or.inr h
      · exact Or.inl (List.mem_cons_of_mem _ h)
    · simp [replace_task, ha] at h
      rcases h with h | h
      · exact Or.inl (by simp [h])
      · rcases ih h with h' | h'
        · exact Or.inl (List.mem_cons_of_mem _ h')
        · exact Or.inr h'

lemma remove_task_subset {tasks : List Task} {tid : Int} {u : Task}
    (h : u ∈ remove_task tasks tid) : u ∈ tasks := by
  induction tasks with
  | nil => simp [remove_task] at h
  | cons a as ih =>
    by_cases ha : a.task_id = tid
    · simp [remove_task, ha] at h
      exact List.mem_cons_of_mem _ h
    · simp [remove_task, ha] at h
      rcases h with h | h
      · simp [h]
      · exact List.mem_cons_of_mem _ (ih h)

lemma from_dict_missing_required {now : String} {r : TaskRecord}
    (h : r.id = none ∨ r.description = none) : Task.from_dict now r = none := by
  rcases h with h | h
  · simp [Task.from_dict, h]
  · cases hi : r.id <;> simp [Task.from_dict, hi, h]

lemma from_dict_list_none {now : String} {rs : List TaskRecord} {r : TaskRecord}
    (hr : r ∈ rs) (h : Task.from_dict now r = none) :
    from_dict_list now rs = none := by
  induction rs with
  | nil => simp at hr
  | cons a as ih =>
    rcases List.mem_cons.mp hr with rfl | hr'
    · simp [from_dict_list, h]
    · cases ha : Task.from_dict now a <;> simp [from_dict_list, ha, ih hr']

/-- C5 — Round-trip: for every well-formed task, `from_dict ∘ to_dict` is the
identity, agreeing with the task on all nine fields. -/
theorem serialize_roundtrip (t : Task) (now : String) (h : t.wellFormed) :
    Task.from_dict now t.to_dict = some t := by
  obtain ⟨-, -, -, hc, hu⟩ := h
  cases t
  simp_all [Task.from_dict, Task.to_dict, orElseStr]

/-- Closed instance of `serialize_roundtrip` at a concrete task. -/
theorem serialize_roundtrip_witness :
    Task.from_dict "T" sampleTask.to_dict = some sampleTask :=
  serialize_roundtrip sampleTask "T" (by unfold Task.wellFormed; decide)

/-- C7 — A fresh manager's load yields the empty collection both when the
persisted file is missing and when its content cannot be parsed; `load_tasks`
is total, so no exception escapes the boundary. -/
theorem load_missing_or_corrupt_empty (now : String) :
    taskManagerInit FileState.missing now = [] ∧
    taskManagerInit FileState.corrupt now = [] :=
  ⟨rfl, rfl⟩

/-- C8 — Deserialization defaults: missing priority ↦ MEDIUM, missing
start/end times ↦ "N/A", missing reminder flag ↦ false, and the legacy
camelCase timestamp keys back `created_at`/`updated_at` when the
snake_case keys are absent. -/
theorem from_dict_defaults (now : String) (i : Int) (d : String) (r : TaskRecord)
    (hid : r.id = some i) (hd : r.description = some d) :
    ∃ t, Task.from_dict now r = some t ∧
      (r.priority = none → t.priority = "MEDIUM") ∧
      (r.start_time = none → t.start_time = "N/A") ∧
      (r.end_time = none → t.end_time = "N/A") ∧
      (r.reminder_enabled = none → t.reminder_enabled = false) ∧
      (∀ s, r.created_at = none → r.createdAt = some s → t.created_at = s) ∧
      (∀ s, r.updated_at = none → r.updatedAt = some s → t.updated_at = s) := by
  refine ⟨{ task_id := i, description := d, status := r.status.getD "TODO",
            priority := r.priority.getD "MEDIUM", start_time := r.start_time.getD "N/A",
            end_time := r.end_time.getD "N/A",
            reminder_enabled := r.reminder_enabled.getD false,
            created_at := orElseStr r.created_at (r.createdAt.getD now),
            updated_at := orElseStr r.updated_at (r.updatedAt.getD now) },
          by simp [Task.from_dict, hid, hd], ?_, ?_, ?_, ?_, ?_, ?_⟩
  · intro h; simp [h]
  · intro h; simp [h]
  · intro h; simp [h]
  · intro h; simp [h]
  · intro s h1 h2; simp [h1, h2, orElseStr]
  · intro s h1 h2; simp [h1, h2, orElseStr]

/-- Closed instance of `from_dict_defaults` on a legacy-shaped record. -/
theorem from_dict_defaults_witness :
    ∃ t, Task.from_dict "T" recLegacy = some t ∧
      (recLegacy.priority = none → t.priority = "MEDIUM") ∧
      (recLegacy.start_time = none → t.start_time = "N/A") ∧
      (recLegacy.end_time = none → t.end_time = "N/A") ∧
      (recLegacy.reminder_enabled = none → t.reminder_enabled = false) ∧
      (∀ s, recLegacy.created_at = none → recLegacy.createdAt = some s →
        t.created_at = s) ∧
      (∀ s, recLegacy.updated_at = none → recLegacy.updatedAt = some s →
        t.updated_at = s) :=
  from_dict_defaults "T" 2 "B" recLegacy rfl rfl

/-- C3 counterexample — one record with a missing required key empties the
whole load: the well-formed record `recGood` deserializes on its own, yet
loading a file holding it next to `recNoDescription` yields `[]`, not a
one-task collection. -/
theorem load_mixed_records_empties :
    (Task.from_dict "T" recGood).isSome = true ∧
    load_tasks [] (FileState.parsed [recGood, recNoDescription]) "T" = [] :=
  ⟨rfl, rfl⟩

/-- C3 amended — a record missing a required key (`id` or `description`)
fails the whole load, not just that record: the collection comes back empty
(`load_tasks` is total, so nothing is raised). -/
theorem load_required_key_failure (now : String) (rs : List TaskRecord)
    (h : ∃ r ∈ rs, r.id = none ∨ r.description = none) :
    load_tasks [] (FileState.parsed rs) now = [] := by
  obtain ⟨r, hr, hmiss⟩ := h
  simp [load_tasks, from_dict_list_none hr (from_dict_missing_required hmiss)]

/-- Closed instance of `load_required_key_failure`. -/
theorem load_required_key_failure_witness :
    load_tasks [] (FileState.parsed [recNoDescription]) "T" = [] :=
  load_required_key_failure "T" [recNoDescription]
    ⟨recNoDescription, by simp, Or.inr rfl⟩

/-- The collection after three successful adds (ids 1, 2, 3). -/
def demoStep1 : List Task :=
  (add_task [] "Task One" "2025-06-01 09:00" "2025-06-01 10:00" false "HIGH" "T").1

def demoStep2 : List Task :=
  (add_task demoStep1 "Task Two" "2025-06-01 10:00" "2025-06-01 11:00" true "MEDIUM" "T").1

def demoStep3 : List Task :=
  (add_task demoStep2 "Task Three" "2025-06-01 11:00" "2025-06-01 12:00" false "LOW" "T").1

/-- The collection after deleting the task with the largest id. -/
def demoAfterDelete : List Task := (delete_task demoStep3 3).1

/-- C2 — after adding tasks 1, 2, 3 and deleting id 3, `get_next_id` hands
out 3 again: the next add reuses the deleted id instead of allocating 4. -/
theorem next_id_reused_after_deleting_max :
    demoStep3.map Task.task_id = [1, 2, 3] ∧
    demoAfterDelete.map Task.task_id = [1, 2] ∧
    get_next_id demoAfterDelete = 3 ∧
    (add_task demoAfterDelete "New Task" "2025-06-01 09:00" "2025-06-01 10:00"
        false "LOW" "T").1.map Task.task_id = [1, 2, 3] := by
  decide

/-- C6 — `add_task`: on any validation failure (unparseable start or end
time, or a priority outside the allowed set after upcasing) the collection
is returned unchanged and unsaved; otherwise the new task is appended with
status TODO, both timestamps set to `now`, the id from `get_next_id`, and
the collection is saved. -/
theorem add_task_spec (tasks : List Task) (d s e : String) (rem : Bool)
    (p now : String) :
    ((parse_date s = none ∨ parse_date e = none ∨ strUpper p ∉ VALID_PRIORITIES) →
        add_task tasks d s e rem p now = (tasks, false)) ∧
    (parse_date s ≠ none → parse_date e ≠ none → strUpper p ∈ VALID_PRIORITIES →
        add_task tasks d s e rem p now =
          (tasks ++ [{ task_id := get_next_id tasks, description := d,
                       status := "TODO", priority := strUpper p, start_time := s,
                       end_time := e, reminder_enabled := rem,
                       created_at := now, updated_at := now }], true)) := by
  constructor
  · rintro (h | h | h) <;>
      cases hs : parse_date s <;> cases he : parse_date e <;>
        simp_all [add_task]
  · intro hs he hp
    cases hs' : parse_date s <;> cases he' : parse_date e <;>
      simp_all [add_task]

/-- C1 counterexample — `update_task` is not all-or-nothing: with a fresh
description and an unparseable end time supplied together, the call aborts
unsaved and leaves `updated_at` alone, yet the supplied description has
already been applied to the in-memory task. -/
theorem update_task_partial_apply :
    (update_task [sampleTask] 1 (some "New") none (some "oops") none "NOW").2
        = false ∧
    (update_task [sampleTask] 1 (some "New") none (some "oops") none "NOW").1.map
        Task.description = ["New"] ∧
    (update_task [sampleTask] 1 (some "New") none (some "oops") none "NOW").1.map
        Task.updated_at = ["2025-05-01 08:00:00"] := by
  decide

/-- The `if description:` mutation of `update_task`. -/
def apply_description (t : Task) (d : Option String) : Task :=
  if truthy d then { t with description := d.getD "" } else t

/-- The `if priority:` mutation of `update_task`, assuming validation passed. -/
def apply_priority (t : Task) (p : Option String) : Task :=
  if truthy p then { t with priority := strUpper (p.getD "") } else t

/-- The `if start_time:` mutation of `update_task`, assuming validation passed. -/
def apply_start (t : Task) (s : Option String) : Task :=
  if truthy s then { t with start_time := s.getD "" } else t

/-- C1 amended — `update_task` aborts at the first invalid supplied field,
checked in source order (description is never validated; then priority, then
start_time, then end_time): the call is unsaved and `updated_at` is not
refreshed, the failing field and everything after it are not applied, but
supplied fields already processed stay applied to the in-memory task. -/
theorem update_task_aborts_at_first_invalid (tasks : List Task) (tid : Int)
    (d s e p : Option String) (now : String) (t : Task)
    (hfind : find_task tasks tid = some t) :
    (truthy p = true → strUpper (p.getD "") ∉ VALID_PRIORITIES →
       update_task tasks tid d s e p now =
         (replace_task tasks tid (apply_description t d), false)) ∧
    ((truthy p = true → strUpper (p.getD "") ∈ VALID_PRIORITIES) →
       truthy s = true → parse_date (s.getD "") = none →
       update_task tasks tid d s e p now =
         (replace_task tasks tid (apply_priority (apply_description t d) p), false)) ∧
    ((truthy p = true → strUpper (p.getD "") ∈ VALID_PRIORITIES) →
       (truthy s = true → parse_date (s.getD "") ≠ none) →
       truthy e = true → parse_date (e.getD "") = none →
       update_task tasks tid d s e p now =
         (replace_task tasks tid
           (apply_start (apply_priority (apply_description t d) p) s), false)) := by
  refine ⟨?_, ?_, ?_⟩
  · intro hp hbad
    simp [update_task, hfind, hp, hbad, apply_description, apply_priority]
  · intro hp hs hsbad
    by_cases hp' : truthy p
    · simp [update_task, hfind, hp', hp hp', update_task_start, hs, hsbad,
            apply_description, apply_priority]
    · simp [update_task, hfind, hp', update_task_start, hs, hsbad,
            apply_description, apply_priority]
  · intro hp hs he hebad
    by_cases hp' : truthy p
    · by_cases hs' : truthy s
      · obtain ⟨v, hv⟩ := Option.ne_none_iff_exists'.mp (hs hs')
        simp [update_task, hfind, hp', hp hp', update_task_start, hs', hv,
              update_task_end, he, hebad, apply_description, apply_priority,
              apply_start]
      · simp [update_task, hfind, hp', hp hp', update_task_start, hs',
              update_task_end, he, hebad, apply_description, apply_priority,
              apply_start]
    · by_cases hs' : truthy s
      · obtain ⟨v, hv⟩ := Option.ne_none_iff_exists'.mp (hs hs')
        simp [update_task, hfind, hp', update_task_start, hs', hv,
              update_task_end, he, hebad, apply_description, apply_priority,
              apply_start]
      · simp [update_task, hfind, hp', update_task_start, hs',
              update_task_end, he, hebad, apply_description, apply_priority,
              apply_start]

/-- Closed instance of `update_task_aborts_at_first_invalid`. -/
theorem update_task_aborts_witness :
    update_task [sampleTask] 1 (some "New") none (some "oops") none "NOW" =
      (replace_task [sampleTask] 1
        (apply_start (apply_priority (apply_description sampleTask (some "New"))
          none) none), false) :=
  (update_task_aborts_at_first_invalid [sampleTask] 1 (some "New") none
      (some "oops") none "NOW" sampleTask rfl).2.2
    (by decide) (by decide) (by decide) (by decide)

/-- C10 — an empty string supplied to `update_task` behaves exactly like an
omitted argument (Python truthiness), and the all-omitted call on an
existing id still succeeds: it refreshes only `updated_at`, saves, and
leaves every other field and every other task unchanged. -/
theorem update_task_empty_is_omitted (tasks : List Task) (tid : Int)
    (d s e p : Option String) (now : String) :
    (update_task tasks tid (some "") s e p now =
       update_task tasks tid none s e p now) ∧
    (update_task tasks tid d (some "") e p now =
       update_task tasks tid d none e p now) ∧
    (update_task tasks tid d s (some "") p now =
       update_task tasks tid d s none p now) ∧
    (update_task tasks tid d s e (some "") now =
       update_task tasks tid d s e none now) ∧
    (∀ t, find_task tasks tid = some t →
       update_task tasks tid none none none none now =
         (replace_task tasks tid { t with updated_at := now }, true)) := by
  refine ⟨?_, ?_, ?_, ?_, ?_⟩
  · cases hf : find_task tasks tid <;>
      simp [update_task, hf, truthy]
  · cases hf : find_task tasks tid <;>
      simp [update_task, hf, update_task_start, truthy]
  · cases hf : find_task tasks tid <;>
      simp [update_task, hf, update_task_start, update_task_end, truthy]
  · cases hf : find_task tasks tid <;>
      simp [update_task, hf, truthy]
  · intro t hf
    simp [update_task, hf, update_task_start, update_task_end, truthy]

lemma notify_cycle_keeps (ts : List Task) (now : Int) :
    ∀ (ns : List Int) (i : Int), i ∈ ns → i ∈ (notify_cycle ts now ns).1 := by
  induction ts with
  | nil => intro ns i hi; simpa [notify_cycle] using hi
  | cons t ts ih =>
    intro ns i hi
    by_cases hd : due_soon t now ns
    · simp only [notify_cycle, hd, if_pos]
      exact ih (ns ++ [t.task_id]) i (List.mem_append_left _ hi)
    · simp only [notify_cycle, hd, if_neg, Bool.false_eq_true, not_false_iff]
      exact ih ns i hi

lemma notify_cycle_fired_remembered (ts : List Task) (now : Int) :
    ∀ (ns : List Int) (i : Int),
      i ∈ (notify_cycle ts now ns).2 → i ∈ (notify_cycle ts now ns).1 := by
  induction ts with
  | nil => intro ns i hi; simp [notify_cycle] at hi
  | cons t ts ih =>
    intro ns i hi
    by_cases hd : due_soon t now ns
    · simp only [notify_cycle, hd, if_pos] at hi ⊢
      rcases List.mem_cons.mp hi with rfl | hi'
      · exact notify_cycle_keeps ts now _ _ (by simp)
      · exact ih _ i hi'
    · simp only [notify_cycle, hd, if_neg, Bool.false_eq_true, not_false_iff] at hi ⊢
      exact ih ns i hi

/-- C4 — the due-soon reminder predicate holds exactly when: status is not
DONE, the reminder flag is set, `end_time` is not the "N/A" sentinel, the id
has not fired before, and the parsed end time lies 0 < Δ ≤ 60 seconds ahead
of `now`; and a polling cycle only ever grows the fired-id set, so an id it
fires (or that was already fired) stays remembered and, by the predicate,
can never fire again. -/
theorem due_soon_spec (t : Task) (now : Int) (notified : List Int)
    (tasks : List Task) :
    (due_soon t now notified = true ↔
       (t.status ≠ "DONE" ∧ t.reminder_enabled = true ∧ t.end_time ≠ "N/A" ∧
        t.task_id ∉ notified ∧
        ∃ e, parse_date t.end_time = some e ∧
          0 < (e : Int) - now ∧ (e : Int) - now ≤ 60)) ∧
    (∀ i, i ∈ notified → i ∈ (notify_cycle tasks now notified).1) ∧
    (∀ i, i ∈ (notify_cycle tasks now notified).2 →
       i ∈ (notify_cycle tasks now notified).1) := by
  refine ⟨?_, fun i => notify_cycle_keeps tasks now notified i,
          fun i => notify_cycle_fired_remembered tasks now notified i⟩
  cases hp : parse_date t.end_time <;>
    simp [due_soon, hp, List.contains, List.elem_iff, and_assoc]

/-- C9 counterexample — loading performs no enum validation: a stored record
whose status is "BANANA" comes back as a live task carrying that status,
which is outside `VALID_STATUSES`. -/
theorem load_admits_invalid_status :
    (taskManagerInit (FileState.parsed [recBadStatus]) "T").map Task.status
        = ["BANANA"] ∧
    "BANANA" ∉ VALID_STATUSES := by
  decide

lemma update_task_end_shape (tasks : List Task) (tid : Int) (t : Task)
    (e : Option String) (now : String) :
    ∃ v b, update_task_end tasks tid t e now = (replace_task tasks tid v, b) ∧
      v.status = t.status ∧ v.priority = t.priority := by
  unfold update_task_end
  by_cases hd : truthy e
  · cases hp : parse_date (e.getD "") with
    | none => exact ⟨t, false, by simp [hd, hp], rfl, rfl⟩
    | some x =>
      exact ⟨{ t with end_time := e.getD "", updated_at := now }, true,
             by simp [hd, hp], rfl, rfl⟩
  · exact ⟨{ t with updated_at := now }, true, by simp [hd], rfl, rfl⟩

lemma update_task_start_shape (tasks : List Task) (tid : Int) (t : Task)
    (s e : Option String) (now : String) :
    ∃ v b, update_task_start tasks tid t s e now = (replace_task tasks tid v, b) ∧
      v.status = t.status ∧ v.priority = t.priority := by
  unfold update_task_start
  by_cases hd : truthy s
  · cases hp : parse_date (s.getD "") with
    | none => exact ⟨t, false, by simp [hd, hp], rfl, rfl⟩
    | some x =>
      obtain ⟨v, b, hvb, hs, hpr⟩ :=
        update_task_end_shape tasks tid { t with start_time := s.getD "" } e now
      exact ⟨v, b, by simp [hd, hp, hvb], hs, hpr⟩
  · obtain ⟨v, b, hvb, hs, hpr⟩ := update_task_end_shape tasks tid t e now
    exact ⟨v, b, by simp [hd, hvb], hs, hpr⟩

lemma enum_ok_of_replace {tasks : List Task} {tid : Int} {v u : Task}
    (h : ∀ x ∈ tasks, enum_ok x) (hv : enum_ok v)
    (hu : u ∈ replace_task tasks tid v) : enum_ok u := by
  rcases replace_task_mem hu with h' | rfl
  · exact h u h'
  · exact hv

/-- C9 amended — every mutating Registry operation preserves the enum
invariant (status and priority stay inside their legal sets); loading is the
exception, as `load_admits_invalid_status` shows, since `from_dict` accepts
whatever status and priority strings the file holds. -/
theorem ops_preserve_enum_ok (tasks : List Task)
    (h : ∀ t ∈ tasks, enum_ok t) :
    (∀ d s e rem p now, ∀ u ∈ (add_task tasks d s e rem p now).1, enum_ok u) ∧
    (∀ tid ns now, ∀ u ∈ (update_status tasks tid ns now).1, enum_ok u) ∧
    (∀ tid d s e p now, ∀ u ∈ (update_task tasks tid d s e p now).1, enum_ok u) ∧
    (∀ tid, ∀ u ∈ (delete_task tasks tid).1, enum_ok u) := by
  refine ⟨?_, ?_, ?_, ?_⟩
  · intro d s e rem p now u hu
    unfold add_task at hu
    cases hs : parse_date s <;> simp [hs] at hu
    · exact h u hu
    · cases he : parse_date e <;> simp [he] at hu
      · exact h u hu
      · by_cases hp : strUpper p ∈ VALID_PRIORITIES
        · simp [hp] at hu
          rcases hu with hu | rfl
          · exact h u hu
          · exact ⟨by simp [VALID_STATUSES], hp⟩
        · simp [hp] at hu
          exact h u hu
  · intro tid ns now u hu
    unfold update_status at hu
    by_cases hv : strUpper ns ∈ VALID_STATUSES
    · simp only [hv, if_pos] at hu
      cases hf : find_task tasks tid with
      | none => simp [hf] at hu; exact h u hu
      | some t =>
        simp only [hf] at hu
        have hv' : enum_ok { t with status := strUpper ns, updated_at := now } :=
          ⟨hv, (h t (find_task_mem hf)).2⟩
        exact enum_ok_of_replace h hv' hu
    · simp [hv] at hu
      exact h u hu
  · intro tid d s e p now u hu
    unfold update_task at hu
    cases hf : find_task tasks tid with
    | none => simp [hf] at hu; exact h u hu
    | some t =>
      have ht : enum_ok t := h t (find_task_mem hf)
      simp only [hf] at hu
      set t1 := if truthy d then { t with description := d.getD "" } else t with ht1
      have ht1ok : enum_ok t1 := by
        by_cases hd : truthy d <;> simp [ht1, hd] <;> exact ht
      by_cases hp : truthy p
      · simp only [hp, if_pos] at hu
        by_cases hpv : strUpper (p.getD "") ∈ VALID_PRIORITIES
        · simp only [hpv, if_pos] at hu
          obtain ⟨v, b, hvb, hvs, hvp⟩ :=
            update_task_start_shape tasks tid { t1 with priority := strUpper (p.getD "") } s e now
          rw [hvb] at hu
          exact enum_ok_of_replace h
            ⟨by rw [hvs]; exact ht1ok.1, by rw [hvp]; exact hpv⟩ hu
        · simp only [hpv, if_neg, not_false_iff] at hu
          exact enum_ok_of_replace h ht1ok hu
      · simp only [hp, if_neg, Bool.false_eq_true, not_false_iff] at hu
        obtain ⟨v, b, hvb, hvs, hvp⟩ := update_task_start_shape tasks tid t1 s e now
        rw [hvb] at hu
        exact enum_ok_of_replace h
          ⟨by rw [hvs]; exact ht1ok.1, by rw [hvp]; exact ht1ok.2⟩ hu
  · intro tid u hu
    unfold delete_task at hu
    cases hf : find_task tasks tid <;> simp [hf] at hu
    · exact h u hu
    · exact h u (remove_task_subset hu)

/-- Closed instance of `ops_preserve_enum_ok` on a one-task collection. -/
theorem ops_preserve_enum_ok_witness :
    (∀ d s e rem p now, ∀ u ∈ (add_task [sampleTask] d s e rem p now).1, enum_ok u) ∧
    (∀ tid ns now, ∀ u ∈ (update_status [sampleTask] tid ns now).1, enum_ok u) ∧
    (∀ tid d s e p now, ∀ u ∈ (update_task [sampleTask] tid d s e p now).1, enum_ok u) ∧
    (∀ tid, ∀ u ∈ (delete_task [sampleTask] tid).1, enum_ok u) :=
  ops_preserve_enum_ok [sampleTask]
    (by intro t ht; rw [List.mem_singleton.mp ht]; exact ⟨by decide, by decide⟩)

end TaskTracker
